import Mathlib

/-!
Shallow embedding of parts of the trojan-go proxy (Go), for checking its
natural-language specification.  Go strings are modelled as Lean `String`
(character lists); all inputs relevant to the spec are ASCII, where Go's
byte indexing and Lean's character indexing agree.  Machine integers are
modelled as `Nat`/`Int` with explicit reduction modulo 2^w where Go
overflow semantics matter.
-/

namespace GoStr

/-- Go `strings.HasSuffix(s, suffix)`. -/
def hasSuffix (s suf : List Char) : Bool := suf.isSuffixOf s

/-- Helper for `indexOf`: scans `s` left to right, returning the offset of
the first position where `sub` is a prefix of the rest. -/
def indexOfAux (sub : List Char) : List Char → Nat → Option Nat
  | [], k => if sub.isPrefixOf ([] : List Char) then some k else none
  | c :: t, k =>
    if sub.isPrefixOf (c :: t) then some k else indexOfAux sub t (k + 1)

/-- Go `strings.Index(s, sub)`: position of the first occurrence of `sub`
in `s`, `none` when absent (Go returns -1). -/
def indexOf (s sub : List Char) : Option Nat := indexOfAux sub s 0

/-- Go `strings.Contains(s, sub)` (defined in Go as `Index(s, sub) >= 0`). -/
def contains (s sub : List Char) : Bool := (indexOf s sub).isSome

/-- Go `strings.HasPrefix(s, p)` as used by `loadCode`. -/
def startsWith (s p : List Char) : Bool := p.isPrefixOf s

/-- Go `strings.Split` with a single-character separator, on char lists. -/
def splitOnChar (sep : Char) : List Char → List (List Char)
  | [] => [[]]
  | c :: rest =>
    let r := splitOnChar sep rest
    if c = sep then [] :: r
    else
      match r with
      | [] => [[c]]
      | g :: gs => (c :: g) :: gs

/-- Go `strings.Split(s, sep)` for a one-character separator. -/
def goSplit (s : String) (sep : Char) : List String :=
  (splitOnChar sep s.toList).map fun l => ⟨l⟩

/-- Go `strings.ToLower` (the configuration strings in play are ASCII). -/
def toLowerStr (s : String) : String := ⟨s.toList.map Char.toLower⟩

end GoStr

namespace Router

/-- Policy constants from tunnel/router/client.go. -/
def Block : Nat := 0

def Bypass : Nat := 1

def Proxy : Nat := 2

/-- Domain-strategy constants from tunnel/router/client.go. -/
def AsIs : Nat := 0

def IPIfNonMatch : Nat := 1

def IPOnDemand : Nat := 2

/-- The four v2ray `Domain_*` rule kinds used by `matchDomain`. -/
inductive DomainRuleType
  | full
  | domain
  | plain
  | regex
deriving DecidableEq

/-- A `v2router.Domain` rule: a kind tag and a value string. -/
structure DomainRule where
  ruleType : DomainRuleType
  value : String
deriving DecidableEq

/-- Regex evaluation oracle standing for Go's `regexp.Match pattern target`:
`none` models a compile error of the pattern, `some b` a successful match
attempt with result `b`. -/
def RegexOracle := String → String → Option Bool

/-- `matchDomain` from tunnel/router/client.go.  Iterates the rule list:
Full compares for equality; Domain requires the rule to be a suffix and the
FIRST occurrence (`strings.Index`) to start at 0 or be preceded by a dot;
Plain (keyword) is substring containment; Regex evaluates the pattern, and
an invalid pattern aborts the whole function with `false`. -/
def matchDomain (re : RegexOracle) : List DomainRule → String → Bool
  | [], _ => false
  | d :: rest, target =>
    match d.ruleType with
    | .full =>
      if d.value = target then true else matchDomain re rest target
    | .domain =>
      if GoStr.hasSuffix target.toList d.value.toList then
        match GoStr.indexOf target.toList d.value.toList with
        | some idx =>
          if idx = 0 then true
          else if target.toList.getD (idx - 1) ' ' = '.' then true
          else matchDomain re rest target
        | none => matchDomain re rest target
      else matchDomain re rest target
    | .plain =>
      if GoStr.contains target.toList d.value.toList then true
      else matchDomain re rest target
    | .regex =>
      match re d.value target with
      | none => false
      | some true => true
      | some false => matchDomain re rest target

/-- An IP is a list of byte values (length 4 or 16), mirroring Go `net.IP`. -/
def IPBytes := List Nat

/-- Go `net.IP.To4`: a 4-byte address is returned as is; a 16-byte
IPv4-mapped address (10 zero bytes then 0xff 0xff) yields its last 4 bytes;
anything else gives `none` (Go nil). -/
def ipTo4 (ip : List Nat) : Option (List Nat) :=
  if ip.length = 4 then some ip
  else if ip.length = 16 ∧ ip.take 12 = [0, 0, 0, 0, 0, 0, 0, 0, 0, 0, 255, 255] then
    some (ip.drop 12)
  else none

/-- Byte list of a CIDR mask with `n` leading one bits (helper for
`cidrMask`; Go writes `^byte(0xff >> n)` for the partial byte). -/
def cidrMaskBytes : Nat → Nat → List Nat
  | 0, _ => []
  | l + 1, n =>
    if 8 ≤ n then 255 :: cidrMaskBytes l (n - 8)
    else (255 - 255 / 2 ^ n) :: cidrMaskBytes l 0

/-- Go `net.CIDRMask(ones, bits)`: `none` models the nil mask returned for
out-of-range arguments. -/
def cidrMask (ones bits : Nat) : Option (List Nat) :=
  if bits ≠ 32 ∧ bits ≠ 128 then none
  else if bits < ones then none
  else some (cidrMaskBytes (bits / 8) ones)

/-- Go `net.IP.Mask`: after normalizing a 16-byte mask against a 4-byte IP
(and vice versa for a v4-mapped IP), lengths must agree; the result is the
pointwise AND.  `none` models Go's nil result. -/
def ipMask (ip mask : List Nat) : Option (List Nat) :=
  let mask :=
    if mask.length = 16 ∧ ip.length = 4 ∧ mask.take 12 = List.replicate 12 255 then
      mask.drop 12
    else mask
  let ip :=
    if mask.length = 4 ∧ ip.length = 16 ∧ ip.take 12 = [0, 0, 0, 0, 0, 0, 0, 0, 0, 0, 255, 255] then
      ip.drop 12
    else ip
  if ip.length = mask.length then
    some ((List.zip ip mask).map fun p => Nat.land p.1 p.2)
  else none

/-- Go `networkNumberAndMask`: normalizes the network address of an IPNet
to 4-byte form when possible and trims a 16-byte mask accordingly. -/
def networkNumberAndMask (netIP mask : List Nat) : Option (List Nat × List Nat) :=
  let nn : Option (List Nat) :=
    match ipTo4 netIP with
    | some x => some x
    | none => if netIP.length = 16 then some netIP else none
  match nn with
  | none => none
  | some nn =>
    if mask.length = 4 then
      if nn.length ≠ 4 then none else some (nn, mask)
    else if mask.length = 16 then
      if nn.length = 4 then some (nn, mask.drop 12) else some (nn, mask)
    else none

/-- Go `net.IPNet.Contains` for the subnet with network address `netIP` and
mask `mask`. -/
def ipNetContains (netIP mask target : List Nat) : Bool :=
  match networkNumberAndMask netIP mask with
  | none => false
  | some (nn, m) =>
    let ip := match ipTo4 target with
      | some x => x
      | none => target
    if ip.length ≠ nn.length then false
    else if m.length < ip.length then false
    else
      (List.zip nn (List.zip m ip)).all fun p =>
        Nat.land p.1 p.2.1 = Nat.land p.2.2 p.2.1

/-- A `v2router.CIDR` rule: network bytes plus one-bit count. -/
structure CIDRRule where
  ip : List Nat
  ones : Nat
deriving DecidableEq

/-- Loop body of `matchIP`: `isIPv6` and `len` are computed once from the
target (as in the Go code), each rule of the other family is skipped, and
the remaining rules are tested with mask/contains. -/
def matchIPAux (isIPv6 : Bool) (len : Nat) (target : List Nat) : List CIDRRule → Bool
  | [] => false
  | c :: rest =>
    let skip := if (ipTo4 c.ip).isSome then isIPv6 else !isIPv6
    if skip then matchIPAux isIPv6 len target rest
    else
      let mask := (cidrMask c.ones (8 * len)).getD []
      let subnetIP := (ipMask c.ip mask).getD []
      if ipNetContains subnetIP mask target then true
      else matchIPAux isIPv6 len target rest

/-- `matchIP` from tunnel/router/client.go. -/
def matchIP (list : List CIDRRule) (target : List Nat) : Bool :=
  let is4 := (ipTo4 target).isSome
  matchIPAux (!is4) (if is4 then 4 else 16) target list

/-- `tunnel.Address` type tags (only the distinction between a domain name
and an IP address matters to the router). -/
inductive AddressType
  | ipv4
  | domainName
  | ipv6
deriving DecidableEq

/-- `tunnel.Address`, restricted to the fields the router reads. -/
structure Address where
  addressType : AddressType
  domainName : String
  ip : List Nat
  port : Nat
deriving DecidableEq

/-- DNS oracle standing for `address.ResolveIP` inside `newIPAddress`:
`none` models a resolution error. -/
def Resolver := Address → Option (List Nat)

/-- `router.Client`, restricted to routing state: the three per-policy
domain lists and CIDR lists (indices Block=0, Bypass=1, Proxy=2), the
default policy and the domain strategy. -/
structure Client where
  domains0 : List DomainRule
  domains1 : List DomainRule
  domains2 : List DomainRule
  cidrs0 : List CIDRRule
  cidrs1 : List CIDRRule
  cidrs2 : List CIDRRule
  defaultPolicy : Nat
  domainStrategy : Nat
deriving DecidableEq

/-- The Go loop `for i := Block; i <= Proxy; i++ { if matchDomain(...) }`
unrolled over the three policy lists. -/
def routeDomainsLoop (re : RegexOracle) (c : Client) (target : String) : Option Nat :=
  if matchDomain re c.domains0 target then some Block
  else if matchDomain re c.domains1 target then some Bypass
  else if matchDomain re c.domains2 target then some Proxy
  else none

/-- The Go loop over the three CIDR lists. -/
def routeIPLoop (c : Client) (ip : List Nat) : Option Nat :=
  if matchIP c.cidrs0 ip then some Block
  else if matchIP c.cidrs1 ip then some Bypass
  else if matchIP c.cidrs2 ip then some Proxy
  else none

/-- The IP pre/post pass of `Route` for a domain-name address: resolve the
name (`newIPAddress`) and, on success, run the CIDR loop. -/
def resolveLoop (resolve : Resolver) (c : Client) (a : Address) : Option Nat :=
  match resolve a with
  | some ip => routeIPLoop c ip
  | none => none

/-- `Client.Route` from tunnel/router/client.go.  For a domain-name address:
an optional IPOnDemand CIDR pre-pass, then the domain lists, then an
optional IPIfNonMatch CIDR pass, then the default policy.  For an IP
address: the CIDR lists, then the default policy. -/
def route (re : RegexOracle) (resolve : Resolver) (c : Client) (a : Address) : Nat :=
  if a.addressType = AddressType.domainName then
    match (if c.domainStrategy = IPOnDemand then resolveLoop resolve c a else none) with
    | some i => i
    | none =>
      match routeDomainsLoop re c a.domainName with
      | some i => i
      | none =>
        if c.domainStrategy = IPIfNonMatch then
          match resolveLoop resolve c a with
          | some i => i
          | none => c.defaultPolicy
        else c.defaultPolicy
  else
    match routeIPLoop c a.ip with
    | some i => i
    | none => c.defaultPolicy

/-- Outcome of `Client.DialConn`: dial through the underlay proxy client,
return a "router blocked address" error, dial directly (successfully or
with a wrapped error), or hit the final `panic("unknown policy")`. -/
inductive DialResult
  | underlay
  | blocked (a : Address)
  | direct
  | directError (e : String)
  | panicUnknown
deriving DecidableEq

/-- `Client.DialConn` from tunnel/router/client.go, with the direct
(freedom) dialer abstracted as `directDial`. -/
def dialConn (re : RegexOracle) (resolve : Resolver)
    (directDial : Address → Except String Unit) (c : Client) (a : Address) : DialResult :=
  let policy := route re resolve c a
  if policy = Proxy then .underlay
  else if policy = Block then .blocked a
  else if policy = Bypass then
    match directDial a with
    | .ok _ => .direct
    | .error e => .directError e
  else .panicUnknown

/-- The router section of the configuration (`cfg.Router`), restricted to
the fields `NewClient` reads. -/
structure RouterSettings where
  domainStrategy : String
  defaultPolicy : String
  proxyRules : List String
  bypassRules : List String
  blockRules : List String
  geoIPFilename : String
  geoSiteFilename : String

/-- `codeInfo` from tunnel/router/client.go. -/
structure CodeInfo where
  code : String
  strategy : Nat
deriving DecidableEq

/-- One list's worth of `loadCode`: keep the rules carrying the given
rule-kind marker `pfx`, stripped of it; empty remainders are warned about
and skipped. -/
def loadCodeFrom (rules : List String) (pfx : String) (strategy : Nat) : List CodeInfo :=
  rules.filterMap fun s =>
    if GoStr.startsWith s.toList pfx.toList then
      if 0 < (⟨s.toList.drop pfx.length⟩ : String).length then
        some ⟨⟨s.toList.drop pfx.length⟩, strategy⟩
      else none
    else none

/-- `loadCode` from tunnel/router/client.go: proxy rules, then bypass
rules, then block rules. -/
def loadCode (cfg : RouterSettings) (pfx : String) : List CodeInfo :=
  loadCodeFrom cfg.proxyRules pfx Proxy ++
    loadCodeFrom cfg.bypassRules pfx Bypass ++
    loadCodeFrom cfg.blockRules pfx Block

/-- The `cfg.Router.DomainStrategy` switch of `NewClient`. -/
def parseDomainStrategy (cfg : RouterSettings) : Except String Nat :=
  if GoStr.toLowerStr cfg.domainStrategy = "as_is" ∨
      GoStr.toLowerStr cfg.domainStrategy = "as-is" ∨
      GoStr.toLowerStr cfg.domainStrategy = "asis" then .ok AsIs
  else if GoStr.toLowerStr cfg.domainStrategy = "ip_if_non_match" ∨
      GoStr.toLowerStr cfg.domainStrategy = "ip-if-non-match" ∨
      GoStr.toLowerStr cfg.domainStrategy = "ipifnonmatch" then .ok IPIfNonMatch
  else if GoStr.toLowerStr cfg.domainStrategy = "ip_on_demand" ∨
      GoStr.toLowerStr cfg.domainStrategy = "ip-on-demand" ∨
      GoStr.toLowerStr cfg.domainStrategy = "ipondemand" then .ok IPOnDemand
  else .error ("unknown strategy: " ++ cfg.domainStrategy)

/-- The `cfg.Router.DefaultPolicy` switch of `NewClient` (whose error
message indeed names `cfg.Router.DomainStrategy`, as in the source). -/
def parseDefaultPolicy (cfg : RouterSettings) : Except String Nat :=
  if GoStr.toLowerStr cfg.defaultPolicy = "proxy" then .ok Proxy
  else if GoStr.toLowerStr cfg.defaultPolicy = "bypass" then .ok Bypass
  else if GoStr.toLowerStr cfg.defaultPolicy = "block" then .ok Block
  else .error ("unknown strategy: " ++ cfg.domainStrategy)

/-- `client.domains[st] = append(client.domains[st], rs...)`. -/
def addDomains (st : Nat) (rs : List DomainRule) (c : Client) : Client :=
  if st = 0 then { c with domains0 := c.domains0 ++ rs }
  else if st = 1 then { c with domains1 := c.domains1 ++ rs }
  else { c with domains2 := c.domains2 ++ rs }

/-- `client.cidrs[st] = append(client.cidrs[st], rs...)`. -/
def addCIDRs (st : Nat) (rs : List CIDRRule) (c : Client) : Client :=
  if st = 0 then { c with cidrs0 := c.cidrs0 ++ rs }
  else if st = 1 then { c with cidrs1 := c.cidrs1 ++ rs }
  else { c with cidrs2 := c.cidrs2 ++ rs }

/-- Geodata loader oracle for `geodataLoader.LoadIP`: `none` models a load
error (which `NewClient` only logs). -/
def GeoIPLoader := String → String → Option (List CIDRRule)

/-- A geosite domain entry: the rule plus its attribute keys. -/
structure GeoDomain where
  rule : DomainRule
  attrs : List String

/-- Geodata loader oracle for `geodataLoader.LoadSite`. -/
def GeoSiteLoader := String → String → Option (List GeoDomain)

/-- The `geoip:` loop of `NewClient`: failed loads are logged and skipped,
successful loads append to the per-policy CIDR lists. -/
def addGeoIPRules (loadIP : GeoIPLoader) (cfg : RouterSettings) (c : Client) : Client :=
  (loadCode cfg "geoip:").foldl
    (fun c ci =>
      match loadIP cfg.geoIPFilename ci.code with
      | none => c
      | some cidrs => addCIDRs ci.strategy cidrs c)
    c

/-- The `@`-attribute parsing of a `geosite:` code in `NewClient`:
`none` models the invalid codes that are warned about and skipped
(`geosite:@cn`, `geosite:google@`); otherwise the remaining code and the
wanted attribute (possibly empty) are returned. -/
def geositeCodeAttr (code : String) : Option (String × String) :=
  match GoStr.indexOf code.toList ['@'] with
  | some idx =>
    if 0 < idx then
      if code.toList.getLastD ' ' = '@' then none
      else some (⟨code.toList.take idx⟩, ⟨code.toList.drop (idx + 1)⟩)
    else none
  | none => some (code, "")

/-- The attribute filter of the `geosite:` loop: when an attribute is
wanted, a domain is appended once per attribute key equal to it under
`strings.EqualFold`. -/
def geositeSelect (attrWanted : String) (domainList : List GeoDomain) : List DomainRule :=
  if attrWanted ≠ "" then
    domainList.flatMap fun d =>
      d.attrs.filterMap fun k =>
        if GoStr.toLowerStr attrWanted = GoStr.toLowerStr k then some d.rule else none
  else domainList.map (·.rule)

/-- The `geosite:` loop of `NewClient`. -/
def addGeoSiteRules (loadSite : GeoSiteLoader) (cfg : RouterSettings) (c : Client) : Client :=
  (loadCode cfg "geosite:").foldl
    (fun c ci =>
      match geositeCodeAttr ci.code with
      | none => c
      | some (code, attrWanted) =>
        match loadSite cfg.geoSiteFilename code with
        | none => c
        | some domainList => addDomains ci.strategy (geositeSelect attrWanted domainList) c)
    c

/-- The `regex:` / `regexp:` loops of `NewClient`: each pattern must
compile (oracle `compileOk` stands for `regexp.Compile` succeeding),
otherwise construction fails with an error. -/
def addRegexRules (compileOk : String → Bool) : List CodeInfo → Client → Except String Client
  | [], c => .ok c
  | info :: rest, c =>
    if compileOk info.code then
      addRegexRules compileOk rest (addDomains info.strategy [⟨DomainRuleType.regex, info.code⟩] c)
    else .error ("invalid regular expression: " ++ info.code)

/-- Digits-only decimal reading (helper for `parseInt32`). -/
def digitsToNat (cs : List Char) : Option Nat :=
  if cs.isEmpty then none
  else if cs.all Char.isDigit then
    some (cs.foldl (fun n c => n * 10 + (c.toNat - 48)) 0)
  else none

/-- Go `strconv.ParseInt(s, 10, 32)`. -/
def parseInt32 (s : String) : Option Int :=
  match s.toList with
  | '-' :: rest =>
    (digitsToNat rest).bind fun n =>
      if (n : Int) ≤ 2 ^ 31 then some (-(n : Int)) else none
  | '+' :: rest =>
    (digitsToNat rest).bind fun n =>
      if (n : Int) ≤ 2 ^ 31 - 1 then some (n : Int) else none
  | cs =>
    (digitsToNat cs).bind fun n =>
      if (n : Int) ≤ 2 ^ 31 - 1 then some (n : Int) else none

/-- IP textual parsing oracle standing for Go `net.ParseIP`. -/
def IPParser := String → Option (List Nat)

/-- The `cidr:` loop of `NewClient`: split on `/`, parse IP and decimal
mask length (stored through a `uint32` cast), any failure is an error. -/
def addCIDRRules (parseIP : IPParser) : List CodeInfo → Client → Except String Client
  | [], c => .ok c
  | info :: rest, c =>
    if (GoStr.goSplit info.code '/').length ≠ 2 then .error ("invalid cidr: " ++ info.code)
    else
      match parseIP ((GoStr.goSplit info.code '/').getD 0 "") with
      | none => .error ("invalid cidr ip: " ++ info.code)
      | some ip =>
        match parseInt32 ((GoStr.goSplit info.code '/').getD 1 "") with
        | none => .error "invalid prefix"
        | some n =>
          addCIDRRules parseIP rest
            (addCIDRs info.strategy [⟨ip, (n % (2 ^ 32 : Int)).toNat⟩] c)

/-- The client value before any rules are loaded. -/
def emptyClient (ds dp : Nat) : Client := ⟨[], [], [], [], [], [], dp, ds⟩

/-- The client state after the non-failing rule-loading steps of
`NewClient`, in source order: `geoip:`, `geosite:`, `domain:`, `keyword:`. -/
def plainRulesClient (loadIP : GeoIPLoader) (loadSite : GeoSiteLoader)
    (cfg : RouterSettings) (ds dp : Nat) : Client :=
  (loadCode cfg "keyword:").foldl
    (fun c info =>
      addDomains info.strategy [⟨DomainRuleType.plain, GoStr.toLowerStr info.code⟩] c)
    ((loadCode cfg "domain:").foldl
      (fun c info =>
        addDomains info.strategy [⟨DomainRuleType.domain, GoStr.toLowerStr info.code⟩] c)
      (addGeoSiteRules loadSite cfg (addGeoIPRules loadIP cfg (emptyClient ds dp))))

/-- `NewClient` from tunnel/router/client.go (the rule-loading pipeline;
logging, memory statistics and the freedom sub-client are elided, and the
geodata loaders, regex compiler and IP parser are oracles for the
corresponding external libraries).  Steps in source order: domain strategy
switch, default policy switch, `geoip:`, `geosite:`, `domain:`, `keyword:`,
`regex:`, `regexp:`, `full:`, `cidr:`. -/
def newClient (loadIP : GeoIPLoader) (loadSite : GeoSiteLoader)
    (compileOk : String → Bool) (parseIP : IPParser)
    (cfg : RouterSettings) : Except String Client :=
  match parseDomainStrategy cfg with
  | .error e => .error e
  | .ok ds =>
    match parseDefaultPolicy cfg with
    | .error e => .error e
    | .ok dp =>
      match addRegexRules compileOk (loadCode cfg "regex:")
          (plainRulesClient loadIP loadSite cfg ds dp) with
      | .error e => .error e
      | .ok c5 =>
        match addRegexRules compileOk (loadCode cfg "regexp:") c5 with
        | .error e => .error e
        | .ok c6 =>
          addCIDRRules parseIP (loadCode cfg "cidr:")
            ((loadCode cfg "full:").foldl
              (fun c info =>
                addDomains info.strategy [⟨DomainRuleType.full, GoStr.toLowerStr info.code⟩] c)
              c6)

end Router

namespace TLSLayer

/-- The inner loop of `ParseCipher` over the library's suite table (pairs
of name and ID).  `found` is the loop-local flag, initialized to `true` and
never reassigned in the source; a warning is counted whenever `!found`
holds before a non-matching entry.  Returns the matched ID (if any) and the
number of warnings emitted. -/
def scanSuites (p : String) : List (String × Nat) → Bool → Option Nat × Nat
  | [], _ => (none, 0)
  | q :: rest, found =>
    if q.1 = p then (some q.2, 0)
    else
      let w := if !found then 1 else 0
      let r := scanSuites p rest found
      (r.1, w + r.2)

/-- `ParseCipher` from tunnel/tls/fingerprint: for each requested name,
scan the suite table `all` (standing for `tls.CipherSuites()`); append the
ID on a name match.  Also returns the total warning count. -/
def parseCipher (all : List (String × Nat)) (s : List String) : List Nat × Nat :=
  s.foldl
    (fun acc p =>
      let r := scanSuites p all true
      match r.1 with
      | some id => (acc.1 ++ [id], acc.2 + r.2)
      | none => (acc.1, acc.2 + r.2))
    ([], 0)

/-- The TLS-relevant configuration fields read by the tls client's
`NewClient`. -/
structure TLSClientSettings where
  fp : String
  sni : String
  verify : Bool
  cipher : String
  reuseSession : Bool
  certPath : String
  remoteHost : String

/-- The fields of the tls `Client` value that `NewClient` fills in. -/
structure TLSClientModel where
  verify : Bool
  sni : String
  caLoaded : Bool
  cipher : List Nat
  sessionTicket : Bool
  fp : String
deriving DecidableEq

/-- `NewClient` from tunnel/tls/client.go: validate the fingerprint name,
default an empty SNI to the remote host, parse the cipher list, and load
the custom CA file when configured (`readFile` stands for
`ioutil.ReadFile`; a failed read is an error). -/
def tlsNewClient (suites : List (String × Nat)) (readFile : String → Option (List Nat))
    (cfg : TLSClientSettings) : Except String TLSClientModel :=
  if cfg.fp ≠ "" ∧ cfg.fp ≠ "firefox" ∧ cfg.fp ≠ "chrome" ∧ cfg.fp ≠ "ios" then
    .error ("invalid fingerprint " ++ cfg.fp)
  else if cfg.certPath ≠ "" then
    match readFile cfg.certPath with
    | none => .error "failed to load cert file"
    | some _ =>
      .ok ⟨cfg.verify, if cfg.sni = "" then cfg.remoteHost else cfg.sni, true,
        (parseCipher suites (GoStr.goSplit cfg.cipher ':')).1, cfg.reuseSession, cfg.fp⟩
  else
    .ok ⟨cfg.verify, if cfg.sni = "" then cfg.remoteHost else cfg.sni, false,
      (parseCipher suites (GoStr.goSplit cfg.cipher ':')).1, cfg.reuseSession, cfg.fp⟩

end TLSLayer

namespace SlogAdapter

/-- An `io.Writer` value: an identity (Go interface identity, used by the
`fallback != primary` comparison) and a write function; `none` models a
write error, `some n` a successful write of `n` bytes. -/
structure WriterRef where
  wid : Nat
  write : List Nat → Option Nat

/-- `FallbackWriter` (primary and fallback writers; `none` is a nil Go
interface value). -/
structure FallbackWriter where
  primary : Option WriterRef
  fallback : Option WriterRef

/-- Go interface equality between the two (possibly nil) writer fields. -/
def sameWriter : Option WriterRef → Option WriterRef → Bool
  | some a, some b => a.wid = b.wid
  | none, none => true
  | _, _ => false

/-- Which writer ended up receiving the bytes of a `Write` call. -/
inductive WriteSink
  | primarySink
  | fallbackSink
  | discarded
deriving DecidableEq

/-- The fallback half of `FallbackWriter.Write`: try the fallback writer if
it is non-nil and not the same value as the primary; if everything failed,
report `len(p)` bytes written and a nil error. -/
def fwTryFallback (fw : FallbackWriter) (p : List Nat) : Nat × Bool × WriteSink :=
  match fw.fallback with
  | some w =>
    if sameWriter fw.fallback fw.primary then (p.length, false, .discarded)
    else
      match w.write p with
      | some n => (n, false, .fallbackSink)
      | none => (p.length, false, .discarded)
  | none => (p.length, false, .discarded)

/-- `FallbackWriter.Write` from the slog adapter: try the primary writer,
then the fallback, then discard; the returned error (the `Bool` component)
is nil on every path of the source. -/
def fwWrite (fw : FallbackWriter) (p : List Nat) : Nat × Bool × WriteSink :=
  match fw.primary with
  | some w =>
    match w.write p with
    | some n => (n, false, .primarySink)
    | none => fwTryFallback fw p
  | none => fwTryFallback fw p

/-- `NewFallbackWriter`: a nil fallback defaults to `os.Stderr` (the
distinguished writer `stderrW`); the error handler, which only prints, is
elided. -/
def newFallbackWriter (primary fallback : Option WriterRef) (stderrW : WriterRef) :
    FallbackWriter :=
  ⟨primary, if fallback.isNone then some stderrW else fallback⟩

end SlogAdapter

namespace ProxyPkg

/-- slog's standard level numbers (log/slog). -/
def slogLevelDebug : Int := -4

def slogLevelInfo : Int := 0

def slogLevelWarn : Int := 4

def slogLevelError : Int := 8

/-- `LevelFatal` from the slog adapter package (`slog.Level(12)`). -/
def slogLevelFatal : Int := 12

/-- `logLevelFromConfig` from proxy/proxy.go. -/
def logLevelFromConfig (level : Int) : Int :=
  if level = 0 then slogLevelDebug
  else if level = 1 then slogLevelInfo
  else if level = 2 then slogLevelWarn
  else if level = 3 then slogLevelError
  else if level = 4 then slogLevelError
  else if level = 5 then 1000
  else slogLevelInfo

/-- slog's handler gate: a record at `msgLevel` is emitted iff it is at or
above the handler's minimum level. -/
def slogEnabled (minLevel msgLevel : Int) : Bool := minLevel ≤ msgLevel

end ProxyPkg

namespace Redirector

/-- The capacity of the redirection channel created by `NewRedirector`
(`make(chan *Redirection, 64)`). -/
def redirectorQueueCapacity : Nat := 64

/-- Possible outcomes of one `Redirect` call. -/
inductive RedirectOutcome
  | enqueued
  | canceled
  | blocked
deriving DecidableEq

/-- Semantics of the `select` in `Redirector.Redirect` over the buffered
channel, as a relation on (queue length, context-done flag): the send case
is ready when the queue has space, the ctx case when the context is done,
and with neither ready the call blocks.  No case touches the inbound
connection. -/
inductive RedirectStep (queueLen : Nat) (ctxDone : Bool) : RedirectOutcome → Prop
  | send : queueLen < redirectorQueueCapacity → RedirectStep queueLen ctxDone .enqueued
  | done : ctxDone = true → RedirectStep queueLen ctxDone .canceled
  | block : redirectorQueueCapacity ≤ queueLen → ctxDone = false →
      RedirectStep queueLen ctxDone .blocked

/-- Whether an outcome of `Redirect` closes the inbound connection: the
source closes it only later, inside the worker's `handle`, never in
`Redirect` itself. -/
def outcomeClosesInbound : RedirectOutcome → Bool := fun _ => false

end Redirector

namespace Common

/-- Reduction to a 32-bit word. -/
def w32 (n : Nat) : Nat := n % 2 ^ 32

/-- Right rotation of a 32-bit word by `n` bits. -/
def rotr (n x : Nat) : Nat := x / 2 ^ n + x % 2 ^ n * 2 ^ (32 - n)

/-- Right shift of a 32-bit word by `n` bits. -/
def shr (n x : Nat) : Nat := x / 2 ^ n

/-- SHA-2 `Ch(x, y, z) = (x AND y) XOR ((NOT x) AND z)`. -/
def ch (x y z : Nat) : Nat :=
  Nat.xor (Nat.land x y) (Nat.land (Nat.xor x (2 ^ 32 - 1)) z)

/-- SHA-2 `Maj(x, y, z)`. -/
def maj (x y z : Nat) : Nat :=
  Nat.xor (Nat.xor (Nat.land x y) (Nat.land x z)) (Nat.land y z)

/-- FIPS 180-4 `Σ0`. -/
def bsig0 (x : Nat) : Nat := Nat.xor (Nat.xor (rotr 2 x) (rotr 13 x)) (rotr 22 x)

/-- FIPS 180-4 `Σ1`. -/
def bsig1 (x : Nat) : Nat := Nat.xor (Nat.xor (rotr 6 x) (rotr 11 x)) (rotr 25 x)

/-- FIPS 180-4 `σ0`. -/
def ssig0 (x : Nat) : Nat := Nat.xor (Nat.xor (rotr 7 x) (rotr 18 x)) (shr 3 x)

/-- FIPS 180-4 `σ1`. -/
def ssig1 (x : Nat) : Nat := Nat.xor (Nat.xor (rotr 17 x) (rotr 19 x)) (shr 10 x)

/-- The 64 SHA-256 round constants of FIPS 180-4 (decimal). -/
def sha2K : List Nat :=
  [1116352408, 1899447441, 3049323471, 3921009573, 961987163, 1508970993,
   2453635748, 2870763221, 3624381080, 310598401, 607225278, 1426881987,
   1925078388, 2162078206, 2614888103, 3248222580, 3835390401, 4022224774,
   264347078, 604807628, 770255983, 1249150122, 1555081692, 1996064986,
   2554220882, 2821834349, 2952996808, 3210313671, 3336571891, 3584528711,
   113926993, 338241895, 666307205, 773529912, 1294757372, 1396182291,
   1695183700, 1986661051, 2177026350, 2456956037, 2730485921, 2820302411,
   3259730800, 3345764771, 3516065817, 3600352804, 4094571909, 275423344,
   430227734, 506948616, 659060556, 883997877, 958139571, 1322822218,
   1537002063, 1747873779, 1955562222, 2024104815, 2227730452, 2361852424,
   2428436474, 2756734187, 3204031479, 3329325298]

/-- An eight-word SHA-2 working state. -/
structure Hash8 where
  a : Nat
  b : Nat
  c : Nat
  d : Nat
  e : Nat
  f : Nat
  g : Nat
  h : Nat

/-- The SHA-224 initial hash value of FIPS 180-4 (decimal). -/
def initH224 : Hash8 :=
  ⟨3238371032, 914150663, 812702999, 4144912697,
   4290775857, 1750603025, 1694076839, 3204075428⟩

/-- One compression round, fed a (constant, schedule word) pair. -/
def roundStep (st : Hash8) (kw : Nat × Nat) : Hash8 :=
  let t1 := w32 (st.h + bsig1 st.e + ch st.e st.f st.g + kw.1 + kw.2)
  let t2 := w32 (bsig0 st.a + maj st.a st.b st.c)
  ⟨w32 (t1 + t2), st.a, st.b, st.c, w32 (st.d + t1), st.e, st.f, st.g⟩

/-- Message-schedule extension: append `k` further words
`σ1(w[t-2]) + w[t-7] + σ0(w[t-15]) + w[t-16]`. -/
def extendSchedule : Nat → List Nat → List Nat
  | 0, ws => ws
  | k + 1, ws =>
    let t := ws.length
    let wNew := w32 (ssig1 (ws.getD (t - 2) 0) + ws.getD (t - 7) 0 +
      ssig0 (ws.getD (t - 15) 0) + ws.getD (t - 16) 0)
    extendSchedule k (ws ++ [wNew])

/-- Big-endian bytes of a chunk, grouped into 32-bit words. -/
def bytesToWords : List Nat → List Nat
  | b0 :: b1 :: b2 :: b3 :: rest =>
    (b0 * 2 ^ 24 + b1 * 2 ^ 16 + b2 * 2 ^ 8 + b3) :: bytesToWords rest
  | _ => []

/-- Compress one 64-byte chunk into the state. -/
def compressChunk (st : Hash8) (chunk : List Nat) : Hash8 :=
  let ws := extendSchedule 48 (bytesToWords chunk)
  let fin := (List.zip sha2K ws).foldl roundStep st
  ⟨w32 (st.a + fin.a), w32 (st.b + fin.b), w32 (st.c + fin.c), w32 (st.d + fin.d),
   w32 (st.e + fin.e), w32 (st.f + fin.f), w32 (st.g + fin.g), w32 (st.h + fin.h)⟩

/-- `k` big-endian bytes of `n`. -/
def beBytes : Nat → Nat → List Nat
  | 0, _ => []
  | k + 1, n => beBytes k (n / 256) ++ [n % 256]

/-- FIPS 180-4 padding: a 0x80 byte, zeros to 56 mod 64, then the bit
length as 8 big-endian bytes. -/
def padMessage (msg : List Nat) : List Nat :=
  msg ++ [0x80] ++ List.replicate ((119 - msg.length % 64) % 64) 0 ++ beBytes 8 (8 * msg.length)

/-- Process `k` chunks of 64 bytes. -/
def processChunks : Nat → Hash8 → List Nat → Hash8
  | 0, st, _ => st
  | k + 1, st, bytes => processChunks k (compressChunk st (bytes.take 64)) (bytes.drop 64)

/-- The SHA-224 digest of a byte list: compress all padded chunks, emit the
first seven state words big-endian (28 bytes).  Models Go
`crypto/sha256.New224` + `Write` + `Sum(nil)`. -/
def sha224Digest (msg : List Nat) : List Nat :=
  let padded := padMessage msg
  let fin := processChunks (padded.length / 64) initH224 padded
  beBytes 4 fin.a ++ beBytes 4 fin.b ++ beBytes 4 fin.c ++ beBytes 4 fin.d ++
    beBytes 4 fin.e ++ beBytes 4 fin.f ++ beBytes 4 fin.g

/-- The lowercase hexadecimal digit of `n < 16` ('0'–'9' then 'a'–'f'). -/
def hexChar (n : Nat) : Char :=
  if n < 10 then Char.ofNat (48 + n) else Char.ofNat (87 + n)

/-- Go `fmt.Sprintf("%02x", v)` for a byte value. -/
def hexByteStr (v : Nat) : String := ⟨[hexChar (v / 16 % 16), hexChar (v % 16)]⟩

/-- UTF-8 encoding of one code point (Go `[]byte(string)` semantics). -/
def utf8EncodeCharNat (c : Nat) : List Nat :=
  if c < 0x80 then [c]
  else if c < 0x800 then [0xc0 + c / 64, 0x80 + c % 64]
  else if c < 0x10000 then [0xe0 + c / 4096, 0x80 + c / 64 % 64, 0x80 + c % 64]
  else [0xf0 + c / 262144, 0x80 + c / 4096 % 64, 0x80 + c / 64 % 64, 0x80 + c % 64]

/-- Go `[]byte(s)`: the UTF-8 bytes of the string. -/
def strBytes (s : String) : List Nat := s.data.flatMap fun c => utf8EncodeCharNat c.toNat

/-- `SHA224String` from common: hash the password and accumulate the
`%02x` encodings of the digest bytes into a string. -/
def SHA224String (password : String) : String :=
  (sha224Digest (strBytes password)).foldl (fun str v => str ++ hexByteStr v) ""

/-- The hex encoding of a byte list, written independently as the
concatenation of the per-byte encodings (the spec's "hex encoding of the
SHA-224 digest"). -/
def hexEncodeBytes (bs : List Nat) : String :=
  ⟨bs.flatMap fun v => (hexByteStr v).data⟩

/-- Membership in the lowercase hexadecimal alphabet. -/
def isLowerHexChar (c : Char) : Bool :=
  (48 ≤ c.toNat ∧ c.toNat ≤ 57) ∨ (97 ≤ c.toNat ∧ c.toNat ≤ 102)

end Common

namespace Router

/-- Modelled from the spec: "Domain-match is a suffix match anchored on a
dot or full length" — the rule matches iff it is a suffix of the target
and either covers the full target or the character just before the suffix
occurrence is a dot.  (Spec-side predicate, for comparison with the
source's `matchDomain`.) -/
def specDomainMatch (rule target : String) : Bool :=
  rule.toList.isSuffixOf target.toList &&
    (rule.toList.length = target.toList.length ||
      target.toList.getD (target.toList.length - rule.toList.length - 1) ' ' = '.')

/-- Regex oracle whose patterns are all valid and never match. -/
def reNone : RegexOracle := fun _ _ => some false

/-- Resolver that always fails (no DNS available). -/
def resNone : Resolver := fun _ => none

/-- A domain-name address on port 443. -/
def dAddr (s : String) : Address := ⟨.domainName, s, [], 443⟩

/-- Geodata loaders that always fail (files absent). -/
def noGeoIP : GeoIPLoader := fun _ _ => none

def noGeoSite : GeoSiteLoader := fun _ _ => none

/-- Regex compiler oracles: everything compiles / nothing compiles. -/
def allCompile : String → Bool := fun _ => true

def noneCompile : String → Bool := fun _ => false

/-- IP parser that always fails. -/
def noIPParse : IPParser := fun _ => none

/-- The spec's example rule set: block `domain:bad.example`, bypass
`domain:corp.lan`, proxy `domain:example.com`, default policy proxy. -/
def exampleCfg : RouterSettings :=
  ⟨"as_is", "proxy", ["domain:example.com"], ["domain:corp.lan"], ["domain:bad.example"], "", ""⟩

/-- The client `NewClient` builds from `exampleCfg`. -/
def exampleClient : Client :=
  ⟨[⟨.domain, "bad.example"⟩], [⟨.domain, "corp.lan"⟩], [⟨.domain, "example.com"⟩],
   [], [], [], Proxy, AsIs⟩

/-- A rule-less client whose default policy is Block. -/
def blockAllClient : Client := ⟨[], [], [], [], [], [], Block, AsIs⟩

/-- A configuration containing an uncompilable block rule `regex:[`. -/
def badRegexCfg : RouterSettings := ⟨"as_is", "proxy", [], [], ["regex:["], "", ""⟩

end Router

namespace TLSLayer

/-- A client configuration with an empty SNI. -/
def cfgDefaultSNI : TLSClientSettings := ⟨"", "", true, "", false, "", "remote.example"⟩

/-- A client configuration with an explicit SNI. -/
def cfgExplicitSNI : TLSClientSettings := ⟨"", "custom.sni", true, "", false, "", "remote.example"⟩

/-- File reader that always fails (no filesystem). -/
def noRead : String → Option (List Nat) := fun _ => none

end TLSLayer

namespace SlogAdapter

/-- A writer that always fails. -/
def failW (i : Nat) : WriterRef := ⟨i, fun _ => none⟩

/-- A writer that always succeeds, reporting the full length. -/
def okW (i : Nat) : WriterRef := ⟨i, fun p => some p.length⟩

/-- The distinguished `os.Stderr` writer value. -/
def stderrW : WriterRef := ⟨2, fun p => some p.length⟩

end SlogAdapter

/-! ## Theorems -/

/-- C2 counterexample: with the queue full (64 pending requests) and a
live context, the only behaviour of `Redirect` is to block; it does not
enqueue, and no outcome of `Redirect` closes the new inbound connection —
so a full queue does not drop the new inbound by closing it. -/
theorem c2_full_queue_does_not_drop :
    Redirector.RedirectStep 64 false Redirector.RedirectOutcome.blocked ∧
    ¬ Redirector.RedirectStep 64 false Redirector.RedirectOutcome.enqueued ∧
    Redirector.outcomeClosesInbound Redirector.RedirectOutcome.blocked = false := by
  refine ⟨Redirector.RedirectStep.block (by decide) rfl, ?_, rfl⟩
  intro h
  cases h with
  | send h => exact absurd h (by decide)

/-- C2 (amended): the redirector's request queue is a bounded channel of
capacity 64; submitting via `Redirect` never closes the inbound
connection, and when the queue is full and the context not cancelled the
call blocks until space or cancellation rather than dropping. -/
theorem c2_redirect_blocks_when_full :
    Redirector.redirectorQueueCapacity = 64 ∧
    (∀ q d o, Redirector.RedirectStep q d o → Redirector.outcomeClosesInbound o = false) ∧
    (∀ q o, Redirector.redirectorQueueCapacity ≤ q →
      (Redirector.RedirectStep q false o ↔ o = Redirector.RedirectOutcome.blocked)) := by
  refine ⟨rfl, fun q d o _ => rfl, fun q o hq => ?_⟩
  constructor
  · intro h
    cases h with
    | send h =>
      exact absurd h (by simp only [Redirector.redirectorQueueCapacity] at hq ⊢; omega)
    | done h => exact absurd h (by simp)
    | block h1 h2 => rfl
  · rintro rfl
    exact Redirector.RedirectStep.block hq rfl

/-- C2 witness: the amended theorem applied at a full queue (64) with a
live context. -/
theorem c2_redirect_blocks_when_full_witness :
    Redirector.outcomeClosesInbound Redirector.RedirectOutcome.blocked = false ∧
    (Redirector.RedirectStep 64 false Redirector.RedirectOutcome.blocked ↔
      Redirector.RedirectOutcome.blocked = Redirector.RedirectOutcome.blocked) :=
  ⟨c2_redirect_blocks_when_full.2.1 64 false Redirector.RedirectOutcome.blocked
      (Redirector.RedirectStep.block (by decide) rfl),
   c2_redirect_blocks_when_full.2.2 64 Redirector.RedirectOutcome.blocked (by decide)⟩

/-- C6 counterexample: configured level 4 maps to `slog.LevelError`, the
same handler level as 3, and error-level records remain enabled — so
level 4 does not enable "only fatal messages". -/
theorem c6_level4_enables_error :
    ProxyPkg.logLevelFromConfig 4 = ProxyPkg.slogLevelError ∧
    ProxyPkg.logLevelFromConfig 4 = ProxyPkg.logLevelFromConfig 3 ∧
    ProxyPkg.slogEnabled (ProxyPkg.logLevelFromConfig 4) ProxyPkg.slogLevelError = true := by
  decide

/-- C6 (amended): the effective minimum level is debug for 0, info for 1,
warn for 2, error for both 3 and 4 (so at 4 error and fatal messages are
enabled, warn is not), 1000 for 5 (disabling every standard level up to
fatal), and info for any other value. -/
theorem c6_log_level_mapping :
    (∀ l : Int, ProxyPkg.logLevelFromConfig l =
      (if l = 0 then ProxyPkg.slogLevelDebug
       else if l = 1 then ProxyPkg.slogLevelInfo
       else if l = 2 then ProxyPkg.slogLevelWarn
       else if l = 3 ∨ l = 4 then ProxyPkg.slogLevelError
       else if l = 5 then 1000
       else ProxyPkg.slogLevelInfo)) ∧
    ProxyPkg.slogEnabled (ProxyPkg.logLevelFromConfig 4) ProxyPkg.slogLevelError = true ∧
    ProxyPkg.slogEnabled (ProxyPkg.logLevelFromConfig 4) ProxyPkg.slogLevelFatal = true ∧
    ProxyPkg.slogEnabled (ProxyPkg.logLevelFromConfig 4) ProxyPkg.slogLevelWarn = false ∧
    ProxyPkg.slogEnabled (ProxyPkg.logLevelFromConfig 5) ProxyPkg.slogLevelFatal = false := by
  refine ⟨fun l => ?_, by decide, by decide, by decide, by decide⟩
  unfold ProxyPkg.logLevelFromConfig
  split_ifs <;> simp_all

/-- C3: whenever `Route` yields Block for an address, `DialConn` returns
the "router blocked address" error outcome, invoking neither the underlay
proxy client nor the direct dialer. -/
theorem c3_block_no_dial (re : Router.RegexOracle) (resolve : Router.Resolver)
    (directDial : Router.Address → Except String Unit) (c : Router.Client) (a : Router.Address)
    (h : Router.route re resolve c a = Router.Block) :
    Router.dialConn re resolve directDial c a = Router.DialResult.blocked a := by
  unfold Router.dialConn
  rw [h]
  rfl

/-- C3 witness: a default-Block client routes `blocked.test` to Block and
`DialConn` returns the blocked outcome. -/
theorem c3_block_no_dial_witness :
    Router.route Router.reNone Router.resNone Router.blockAllClient
      (Router.dAddr "blocked.test") = Router.Block ∧
    Router.dialConn Router.reNone Router.resNone (fun _ => Except.ok ()) Router.blockAllClient
      (Router.dAddr "blocked.test") = Router.DialResult.blocked (Router.dAddr "blocked.test") :=
  ⟨by decide, c3_block_no_dial _ _ _ _ _ (by decide)⟩

/-- The inner suite scan, started with its constant `found = true` flag,
returns the ID of the first suite with the requested name and emits no
warning. -/
theorem scanSuites_eq (p : String) (all : List (String × Nat)) :
    TLSLayer.scanSuites p all true =
      ((all.find? fun q => q.1 == p).map Prod.snd, 0) := by
  induction all with
  | nil => rfl
  | cons q rest ih =>
    unfold TLSLayer.scanSuites
    by_cases h : q.1 = p
    · have hb : (q.1 == p) = true := by simp [h]
      simp [h, List.find?, hb]
    · have hb : (q.1 == p) = false := by simp [h]
      simp [h, List.find?, hb, ih]

/-- The fold inside `ParseCipher`, for an arbitrary accumulator. -/
theorem parseCipher_foldl (all : List (String × Nat)) :
    ∀ (s : List String) (acc : List Nat × Nat),
      s.foldl (fun acc p =>
        let r := TLSLayer.scanSuites p all true
        match r.1 with
        | some id => (acc.1 ++ [id], acc.2 + r.2)
        | none => (acc.1, acc.2 + r.2)) acc =
      (acc.1 ++ (s.filterMap fun p => (all.find? fun q => q.1 == p).map Prod.snd), acc.2) := by
  intro s
  induction s with
  | nil => intro acc; simp
  | cons p rest ih =>
    intro acc
    rw [List.foldl_cons, scanSuites_eq]
    cases h : (all.find? fun q => q.1 == p) with
    | none => simp only [h, Option.map_none, List.filterMap_cons_none, ih]; simp [h]
    | some q =>
      simp only [h, Option.map_some]
      rw [ih]
      simp [h, List.filterMap_cons]

/-- C10: `ParseCipher` returns exactly the IDs of the input names that
equal the name of some suite in the library table, in input order; names
matching no suite are skipped silently, and the "invalid cipher suite"
warning counter stays 0 on every input (the loop-local `found` flag is
constantly true). -/
theorem c10_parse_cipher (all : List (String × Nat)) (s : List String) :
    TLSLayer.parseCipher all s =
      (s.filterMap fun p => (all.find? fun q => q.1 == p).map Prod.snd, 0) := by
  unfold TLSLayer.parseCipher
  rw [parseCipher_foldl]
  simp

/-- C7: a successfully constructed tls client carries the configured SNI,
defaulted to the configured remote host when the configured SNI is empty. -/
theorem c7_tls_sni_default (suites : List (String × Nat))
    (readFile : String → Option (List Nat)) (cfg : TLSLayer.TLSClientSettings)
    (c : TLSLayer.TLSClientModel)
    (h : TLSLayer.tlsNewClient suites readFile cfg = .ok c) :
    c.sni = (if cfg.sni = "" then cfg.remoteHost else cfg.sni) := by
  unfold TLSLayer.tlsNewClient at h
  by_cases hfp : cfg.fp ≠ "" ∧ cfg.fp ≠ "firefox" ∧ cfg.fp ≠ "chrome" ∧ cfg.fp ≠ "ios"
  · rw [if_pos hfp] at h
    exact absurd h (by simp)
  · rw [if_neg hfp] at h
    by_cases hcp : cfg.certPath ≠ ""
    · rw [if_pos hcp] at h
      cases hr : readFile cfg.certPath with
      | none => rw [hr] at h; exact absurd h (by simp)
      | some bs => rw [hr] at h; cases h; rfl
    · rw [if_neg hcp] at h
      cases h
      rfl

/-- C7 witness: the theorem applied to a concrete configuration with an
empty SNI and remote host `remote.example`. -/
theorem c7_tls_sni_default_witness :
    TLSLayer.tlsNewClient [] TLSLayer.noRead TLSLayer.cfgDefaultSNI =
      Except.ok (⟨true, "remote.example", false, [], false, ""⟩ : TLSLayer.TLSClientModel) ∧
    (⟨true, "remote.example", false, [], false, ""⟩ : TLSLayer.TLSClientModel).sni =
      (if TLSLayer.cfgDefaultSNI.sni = "" then TLSLayer.cfgDefaultSNI.remoteHost
       else TLSLayer.cfgDefaultSNI.sni) :=
  ⟨rfl, c7_tls_sni_default [] TLSLayer.noRead TLSLayer.cfgDefaultSNI _ rfl⟩

/-- The fallback half of `Write` always reports a nil error. -/
theorem fwTryFallback_no_error (fw : SlogAdapter.FallbackWriter) (p : List Nat) :
    (SlogAdapter.fwTryFallback fw p).2.1 = false := by
  unfold SlogAdapter.fwTryFallback
  cases fw.fallback with
  | none => rfl
  | some w =>
    simp only
    split_ifs
    · rfl
    · cases w.write p <;> rfl

/-- C8: `FallbackWriter.Write` never returns a non-nil error; when the
primary writer fails and a distinct non-nil fallback is present, the bytes
are handed to the fallback writer, and when that fails too the call still
reports `len(p)` with a nil error; `NewFallbackWriter` defaults a nil
fallback to stderr. -/
theorem c8_fallback_writer (fw : SlogAdapter.FallbackWriter) (p : List Nat) :
    (SlogAdapter.fwWrite fw p).2.1 = false ∧
    (∀ w v, fw.primary = some w → w.write p = none → fw.fallback = some v →
      SlogAdapter.sameWriter fw.fallback fw.primary = false →
      SlogAdapter.fwWrite fw p =
        (match v.write p with
         | some n => (n, false, SlogAdapter.WriteSink.fallbackSink)
         | none => (p.length, false, SlogAdapter.WriteSink.discarded))) ∧
    (∀ pw st, (SlogAdapter.newFallbackWriter pw none st).fallback = some st) := by
  refine ⟨?_, ?_, fun pw st => rfl⟩
  · unfold SlogAdapter.fwWrite
    cases fw.primary with
    | none => exact fwTryFallback_no_error fw p
    | some w =>
      simp only
      cases w.write p with
      | none => exact fwTryFallback_no_error fw p
      | some n => rfl
  · intro w v hpw hwp hfv hsame
    rw [hfv, hpw] at hsame
    unfold SlogAdapter.fwWrite SlogAdapter.fwTryFallback
    rw [hpw]
    simp only [hwp, hfv, hsame, Bool.false_eq_true, if_false]

/-- C8 witness: a failing primary with a distinct succeeding fallback, and
the stderr default of the constructor. -/
theorem c8_fallback_writer_witness :
    (SlogAdapter.fwWrite ⟨some (SlogAdapter.failW 0), some (SlogAdapter.okW 1)⟩ [7, 7, 7]).2.1 =
      false ∧
    SlogAdapter.fwWrite ⟨some (SlogAdapter.failW 0), some (SlogAdapter.okW 1)⟩ [7, 7, 7] =
      (3, false, SlogAdapter.WriteSink.fallbackSink) ∧
    (SlogAdapter.newFallbackWriter none none SlogAdapter.stderrW).fallback =
      some SlogAdapter.stderrW :=
  ⟨(c8_fallback_writer ⟨some (SlogAdapter.failW 0), some (SlogAdapter.okW 1)⟩ [7, 7, 7]).1,
   ((c8_fallback_writer ⟨some (SlogAdapter.failW 0), some (SlogAdapter.okW 1)⟩ [7, 7, 7]).2.1
      (SlogAdapter.failW 0) (SlogAdapter.okW 1) rfl rfl rfl rfl).trans rfl,
   (c8_fallback_writer ⟨none, none⟩ []).2.2 none SlogAdapter.stderrW⟩

/-- The digest-to-string fold of `SHA224String`, for any initial string. -/
theorem foldl_hexByteStr (bs : List Nat) :
    ∀ s : String, bs.foldl (fun str v => str ++ Common.hexByteStr v) s =
      ⟨s.data ++ bs.flatMap fun v => (Common.hexByteStr v).data⟩ := by
  induction bs with
  | nil => intro s; simp
  | cons v bs ih =>
    intro s
    rw [List.foldl_cons, ih]
    simp [String.data_append]

/-- Each hex pair contributes two characters. -/
theorem hexData_length (bs : List Nat) :
    (bs.flatMap fun v => (Common.hexByteStr v).data).length = 2 * bs.length := by
  induction bs with
  | nil => rfl
  | cons v bs ih =>
    rw [List.flatMap_cons, List.length_append, ih]
    have h2 : (Common.hexByteStr v).data.length = 2 := rfl
    rw [h2, List.length_cons]
    omega

/-- `beBytes` produces exactly the requested number of bytes. -/
theorem beBytes_length (k : Nat) : ∀ n, (Common.beBytes k n).length = k := by
  induction k with
  | zero => intro n; rfl
  | succ k ih => intro n; simp [Common.beBytes, ih]

/-- The SHA-224 digest always has 28 bytes. -/
theorem sha224Digest_length (msg : List Nat) : (Common.sha224Digest msg).length = 28 := by
  unfold Common.sha224Digest
  simp [beBytes_length]

/-- The sixteen hexadecimal digit characters are lowercase hex. -/
theorem hexChar_lower (n : Nat) (h : n < 16) : Common.isLowerHexChar (Common.hexChar n) = true := by
  revert h
  revert n
  decide

/-- Both characters of a hex pair are lowercase hex. -/
theorem hexByteStr_lower (v : Nat) :
    (Common.hexByteStr v).data.all Common.isLowerHexChar = true := by
  have h1 := hexChar_lower (v / 16 % 16) (Nat.mod_lt _ (by norm_num))
  have h2 := hexChar_lower (v % 16) (Nat.mod_lt _ (by norm_num))
  simp [Common.hexByteStr, h1, h2]

/-- C4: `SHA224String` returns exactly the hex encoding of the SHA-224
digest of the password's bytes — a 56-character string all of whose
characters are lowercase hexadecimal digits. -/
theorem c4_sha224_string (p : String) :
    Common.SHA224String p = Common.hexEncodeBytes (Common.sha224Digest (Common.strBytes p)) ∧
    (Common.SHA224String p).length = 56 ∧
    (Common.SHA224String p).data.all Common.isLowerHexChar = true := by
  have key : Common.SHA224String p =
      Common.hexEncodeBytes (Common.sha224Digest (Common.strBytes p)) := by
    unfold Common.SHA224String Common.hexEncodeBytes
    rw [foldl_hexByteStr]
    rfl
  refine ⟨key, ?_, ?_⟩
  · rw [key]
    have hlen : (Common.hexEncodeBytes (Common.sha224Digest (Common.strBytes p))).length =
        ((Common.sha224Digest (Common.strBytes p)).flatMap
          fun v => (Common.hexByteStr v).data).length := rfl
    rw [hlen, hexData_length, sha224Digest_length]
  · rw [key]
    have hdata : (Common.hexEncodeBytes (Common.sha224Digest (Common.strBytes p))).data =
        (Common.sha224Digest (Common.strBytes p)).flatMap
          fun v => (Common.hexByteStr v).data := rfl
    rw [hdata, List.all_eq_true]
    intro c hc
    rw [List.mem_flatMap] at hc
    obtain ⟨v, _, hcv⟩ := hc
    have hall := hexByteStr_lower v
    rw [List.all_eq_true] at hall
    exact hall c hcv

/-- FIPS 180-4 test vector: the model of Go's `crypto/sha256.New224`
reproduces SHA-224("abc"). -/
theorem sha224_vector_abc :
    Common.SHA224String "abc" = "23097d223405d8228642a477bda255b32aadbce4bda0b3f7e36c9da7" := by
  decide

/-- The `strings.Index` scan started at offset `k` returns `some i` exactly
when `i` is at least `k` and `i - k` is the first position of `s` at which
`sub` is a prefix of the remaining tail. -/
theorem indexOfAux_some_iff (sub : List Char) :
    ∀ (s : List Char) (k i : Nat),
      GoStr.indexOfAux sub s k = some i ↔
        (k ≤ i ∧ sub.isPrefixOf (s.drop (i - k)) = true ∧
          ∀ j, j < i - k → sub.isPrefixOf (s.drop j) = false) := by
  intro s
  induction s with
  | nil =>
    intro k i
    unfold GoStr.indexOfAux
    by_cases hp : sub.isPrefixOf ([] : List Char) = true
    · rw [if_pos hp]
      constructor
      · intro h
        cases h
        exact ⟨le_refl k, by simpa using hp, fun j hj => absurd hj (by omega)⟩
      · rintro ⟨h1, h2, h3⟩
        have hik : i = k := by
          by_contra hne
          have h0 := h3 0 (by omega)
          rw [List.drop_nil] at h0
          rw [h0] at hp
          cases hp
        subst hik
        rfl
    · rw [if_neg hp]
      constructor
      · intro h
        cases h
      · rintro ⟨h1, h2, h3⟩
        rw [List.drop_nil] at h2
        exact absurd h2 hp
  | cons c t ih =>
    intro k i
    unfold GoStr.indexOfAux
    by_cases hp : sub.isPrefixOf (c :: t) = true
    · rw [if_pos hp]
      constructor
      · intro h
        cases h
        exact ⟨le_refl k, by simpa using hp, fun j hj => absurd hj (by omega)⟩
      · rintro ⟨h1, h2, h3⟩
        have hik : i = k := by
          by_contra hne
          have h0 := h3 0 (by omega)
          rw [List.drop_zero] at h0
          rw [h0] at hp
          cases hp
        subst hik
        rfl
    · rw [if_neg hp]
      have hpf : sub.isPrefixOf (c :: t) = false := by
        cases hq : sub.isPrefixOf (c :: t)
        · rfl
        · exact absurd hq hp
      rw [ih (k + 1) i]
      constructor
      · rintro ⟨h1, h2, h3⟩
        refine ⟨by omega, ?_, ?_⟩
        · have hd : (c :: t).drop (i - k) = t.drop (i - (k + 1)) := by
            rw [show i - k = (i - (k + 1)) + 1 by omega]
            rfl
          rw [hd]
          exact h2
        · intro j hj
          cases j with
          | zero => simpa using hpf
          | succ j' =>
            show sub.isPrefixOf (t.drop j') = false
            exact h3 j' (by omega)
      · rintro ⟨h1, h2, h3⟩
        have hki : k + 1 ≤ i := by
          by_contra hlt
          have hik : i = k := by omega
          subst hik
          rw [Nat.sub_self, List.drop_zero] at h2
          rw [h2] at hpf
          cases hpf
        refine ⟨hki, ?_, ?_⟩
        · have hd : (c :: t).drop (i - k) = t.drop (i - (k + 1)) := by
            rw [show i - k = (i - (k + 1)) + 1 by omega]
            rfl
          rw [hd] at h2
          exact h2
        · intro j hj
          have hx := h3 (j + 1) (by omega)
          exact hx

/-- `strings.Index` returns the first occurrence. -/
theorem indexOf_some_iff (s sub : List Char) (i : Nat) :
    GoStr.indexOf s sub = some i ↔
      (sub.isPrefixOf (s.drop i) = true ∧ ∀ j, j < i → sub.isPrefixOf (s.drop j) = false) := by
  unfold GoStr.indexOf
  rw [indexOfAux_some_iff]
  constructor
  · rintro ⟨_, h2, h3⟩
    exact ⟨by simpa using h2, fun j hj => h3 j (by omega)⟩
  · rintro ⟨h2, h3⟩
    exact ⟨Nat.zero_le i, by simpa using h2, fun j hj => h3 j (by omega)⟩

/-- When the scan fails there is no occurrence at all. -/
theorem indexOfAux_none_all (sub : List Char) :
    ∀ (s : List Char) (k : Nat), GoStr.indexOfAux sub s k = none →
      ∀ j, sub.isPrefixOf (s.drop j) = false := by
  intro s
  induction s with
  | nil =>
    intro k h j
    unfold GoStr.indexOfAux at h
    by_cases hp : sub.isPrefixOf ([] : List Char) = true
    · rw [if_pos hp] at h
      cases h
    · rw [List.drop_nil]
      cases hq : sub.isPrefixOf ([] : List Char)
      · rfl
      · exact absurd hq hp
  | cons c t ih =>
    intro k h j
    unfold GoStr.indexOfAux at h
    by_cases hp : sub.isPrefixOf (c :: t) = true
    · rw [if_pos hp] at h
      cases h
    · rw [if_neg hp] at h
      cases j with
      | zero =>
        rw [List.drop_zero]
        cases hq : sub.isPrefixOf (c :: t)
        · rfl
        · exact absurd hq hp
      | succ j' =>
        show sub.isPrefixOf (t.drop j') = false
        exact ih (k + 1) h j'

/-- The Go `strings.Contains` test decides list-infix. -/
theorem contains_iff_infix (s sub : List Char) :
    GoStr.contains s sub = true ↔ sub <:+: s := by
  unfold GoStr.contains
  constructor
  · intro h
    rw [Option.isSome_iff_exists] at h
    obtain ⟨i, hi⟩ := h
    rw [indexOf_some_iff] at hi
    have hpre : sub <+: s.drop i := by
      rw [← List.isPrefixOf_iff_prefix]
      exact hi.1
    obtain ⟨t, ht⟩ := hpre
    obtain ⟨u, hu⟩ := List.drop_suffix i s
    exact ⟨u, t, by rw [List.append_assoc, ht, hu]⟩
  · rintro ⟨u, t, hut⟩
    cases hio : GoStr.indexOf s sub with
    | some i => rfl
    | none =>
      have hall := indexOfAux_none_all sub s 0 hio u.length
      have hdrop : s.drop u.length = sub ++ t := by
        rw [← hut, List.append_assoc, List.drop_left]
      rw [hdrop] at hall
      have htrue : sub.isPrefixOf (sub ++ t) = true := by
        rw [List.isPrefixOf_iff_prefix]
        exact List.prefix_append sub t
      rw [hall] at htrue
      cases htrue

/-- A Full rule matches exactly equality. -/
theorem matchDomain_full_iff (re : Router.RegexOracle) (v t : String) :
    Router.matchDomain re [⟨Router.DomainRuleType.full, v⟩] t = true ↔ v = t := by
  show (if v = t then true else Router.matchDomain re [] t) = true ↔ v = t
  by_cases h : v = t
  · rw [if_pos h]
    simp [h]
  · rw [if_neg h]
    simp [Router.matchDomain, h]

/-- A Plain (keyword) rule matches exactly substring containment. -/
theorem matchDomain_plain_iff (re : Router.RegexOracle) (v t : String) :
    Router.matchDomain re [⟨Router.DomainRuleType.plain, v⟩] t = true ↔
      v.toList <:+: t.toList := by
  have hm : Router.matchDomain re [⟨Router.DomainRuleType.plain, v⟩] t =
      GoStr.contains t.toList v.toList := by
    show (if GoStr.contains t.toList v.toList then true else Router.matchDomain re [] t) = _
    by_cases h : GoStr.contains t.toList v.toList = true
    · rw [if_pos h, h]
    · rw [if_neg h]
      cases hq : GoStr.contains t.toList v.toList
      · rfl
      · exact absurd hq h
  rw [hm, contains_iff_infix]

/-- A Regex rule with a valid pattern matches exactly when the compiled
pattern matches. -/
theorem matchDomain_regex_eq (m : String → String → Bool) (v t : String) :
    Router.matchDomain (fun pat s => some (m pat s)) [⟨Router.DomainRuleType.regex, v⟩] t =
      m v t := by
  show (match some (m v t) with
    | none => false
    | some true => true
    | some false => Router.matchDomain (fun pat s => some (m pat s)) [] t) = m v t
  cases m v t <;> rfl

/-- A Domain rule matches exactly when it is a suffix of the target AND
its FIRST occurrence in the target either starts the target or is
preceded by a dot (the corrected anchoring). -/
theorem matchDomain_domain_iff (re : Router.RegexOracle) (v t : String) :
    Router.matchDomain re [⟨Router.DomainRuleType.domain, v⟩] t = true ↔
      (v.toList <:+ t.toList ∧ ∃ i, v.toList <+: t.toList.drop i ∧
        (∀ j, j < i → ¬ v.toList <+: t.toList.drop j) ∧
        (i = 0 ∨ t.toList.getD (i - 1) ' ' = '.')) := by
  have hm : Router.matchDomain re [⟨Router.DomainRuleType.domain, v⟩] t =
      (if GoStr.hasSuffix t.toList v.toList then
        match GoStr.indexOf t.toList v.toList with
        | some idx =>
          if idx = 0 then true
          else if t.toList.getD (idx - 1) ' ' = '.' then true
          else false
        | none => false
      else false) := by
    show (if GoStr.hasSuffix t.toList v.toList then
        match GoStr.indexOf t.toList v.toList with
        | some idx =>
          if idx = 0 then true
          else if t.toList.getD (idx - 1) ' ' = '.' then true
          else Router.matchDomain re [] t
        | none => Router.matchDomain re [] t
      else Router.matchDomain re [] t) = _
    rw [show Router.matchDomain re [] t = false from rfl]
  rw [hm]
  by_cases hs : GoStr.hasSuffix t.toList v.toList = true
  · rw [if_pos hs]
    have hsuf : v.toList <:+ t.toList := by
      rw [← List.isSuffixOf_iff_suffix]
      exact hs
    cases hio : GoStr.indexOf t.toList v.toList with
    | none =>
      show false = true ↔ _
      constructor
      · intro h
        cases h
      · rintro ⟨-, i, hpre, -, -⟩
        have hb : v.toList.isPrefixOf (t.toList.drop i) = true :=
          List.isPrefixOf_iff_prefix.2 hpre
        rw [indexOfAux_none_all v.toList t.toList 0 hio i] at hb
        cases hb
    | some idx =>
      show (if idx = 0 then true
        else if t.toList.getD (idx - 1) ' ' = '.' then true else false) = true ↔ _
      rw [indexOf_some_iff] at hio
      obtain ⟨hpre, hmin⟩ := hio
      by_cases h0 : idx = 0
      · subst h0
        rw [if_pos rfl]
        constructor
        · intro _
          exact ⟨hsuf, 0, List.isPrefixOf_iff_prefix.1 hpre,
            fun j hj => absurd hj (by omega), Or.inl rfl⟩
        · intro _
          rfl
      · rw [if_neg h0]
        by_cases hdot : t.toList.getD (idx - 1) ' ' = '.'
        · rw [if_pos hdot]
          constructor
          · intro _
            refine ⟨hsuf, idx, List.isPrefixOf_iff_prefix.1 hpre, ?_, Or.inr hdot⟩
            intro j hj hjp
            have hb := List.isPrefixOf_iff_prefix.2 hjp
            rw [hmin j hj] at hb
            cases hb
          · intro _
            rfl
        · rw [if_neg hdot]
          constructor
          · intro h
            cases h
          · rintro ⟨-, i, hpre2, hmin2, hanch⟩
            have hieq : i = idx := by
              by_contra hne
              rcases Nat.lt_or_ge i idx with hlt | hge
              · have hb := List.isPrefixOf_iff_prefix.2 hpre2
                rw [hmin i hlt] at hb
                cases hb
              · exact hmin2 idx (by omega) (List.isPrefixOf_iff_prefix.1 hpre)
            subst hieq
            rcases hanch with h | h
            · exact absurd h h0
            · exact absurd h hdot
  · rw [if_neg hs]
    constructor
    · intro h
      cases h
    · rintro ⟨hsuf, -⟩
      exact absurd (List.isSuffixOf_iff_suffix.2 hsuf) hs

/-- With the AsIs strategy, routing a domain-name address consults the
three domain lists in policy order and falls back to the default policy. -/
theorem route_asis_domain (re : Router.RegexOracle) (resolve : Router.Resolver)
    (c : Router.Client) (a : Router.Address) (hds : c.domainStrategy = Router.AsIs)
    (hty : a.addressType = Router.AddressType.domainName) :
    Router.route re resolve c a =
      (if Router.matchDomain re c.domains0 a.domainName then Router.Block
       else if Router.matchDomain re c.domains1 a.domainName then Router.Bypass
       else if Router.matchDomain re c.domains2 a.domainName then Router.Proxy
       else c.defaultPolicy) := by
  by_cases h0 : Router.matchDomain re c.domains0 a.domainName = true <;>
    by_cases h1 : Router.matchDomain re c.domains1 a.domainName = true <;>
      by_cases h2 : Router.matchDomain re c.domains2 a.domainName = true <;>
        simp [Router.route, Router.routeDomainsLoop, hty, hds, h0, h1, h2,
          Router.AsIs, Router.IPOnDemand, Router.IPIfNonMatch]

/-- C1 counterexample: for rule `domain:com` and target `comcom` the code
matches (the FIRST occurrence of the rule starts at index 0), yet the rule
is neither the whole target nor a suffix preceded by a dot, so the spec's
"suffix match anchored on a dot or full length" predicate rejects it. -/
theorem c1_domain_anchor_counterexample :
    Router.matchDomain Router.reNone
      [⟨Router.DomainRuleType.domain, "com"⟩] "comcom" = true ∧
    Router.specDomainMatch "com" "comcom" = false := by
  constructor
  · decide
  · decide

/-- C1 (amended): with the AsIs strategy, Route checks the domain rule
lists in policy order Block, Bypass, Proxy and returns the first policy
whose list matches, else the default policy; a Full rule matches iff it
equals the target, a Domain rule matches iff it is a suffix of the target
whose FIRST occurrence in the target either starts it or is preceded by a
dot, a Keyword rule matches iff it is a substring, a valid Regex rule
matches iff its pattern matches; and the four example routes hold as
stated for the example configuration. -/
theorem c1_route_policy_order :
    (∀ (re : Router.RegexOracle) (resolve : Router.Resolver) (c : Router.Client)
        (a : Router.Address), c.domainStrategy = Router.AsIs →
      a.addressType = Router.AddressType.domainName →
      Router.route re resolve c a =
        (if Router.matchDomain re c.domains0 a.domainName then Router.Block
         else if Router.matchDomain re c.domains1 a.domainName then Router.Bypass
         else if Router.matchDomain re c.domains2 a.domainName then Router.Proxy
         else c.defaultPolicy)) ∧
    (∀ re v t, Router.matchDomain re [⟨Router.DomainRuleType.full, v⟩] t = true ↔ v = t) ∧
    (∀ re v t, Router.matchDomain re [⟨Router.DomainRuleType.domain, v⟩] t = true ↔
      (v.toList <:+ t.toList ∧ ∃ i, v.toList <+: t.toList.drop i ∧
        (∀ j, j < i → ¬ v.toList <+: t.toList.drop j) ∧
        (i = 0 ∨ t.toList.getD (i - 1) ' ' = '.'))) ∧
    (∀ re v t, Router.matchDomain re [⟨Router.DomainRuleType.plain, v⟩] t = true ↔
      v.toList <:+: t.toList) ∧
    (∀ (m : String → String → Bool) v t,
      Router.matchDomain (fun pat s => some (m pat s))
        [⟨Router.DomainRuleType.regex, v⟩] t = m v t) ∧
    (Router.newClient Router.noGeoIP Router.noGeoSite Router.allCompile Router.noIPParse
        Router.exampleCfg = Except.ok Router.exampleClient ∧
      Router.route Router.reNone Router.resNone Router.exampleClient
        (Router.dAddr "x.bad.example") = Router.Block ∧
      Router.route Router.reNone Router.resNone Router.exampleClient
        (Router.dAddr "api.corp.lan") = Router.Bypass ∧
      Router.route Router.reNone Router.resNone Router.exampleClient
        (Router.dAddr "www.example.com") = Router.Proxy ∧
      Router.route Router.reNone Router.resNone Router.exampleClient
        (Router.dAddr "other.com") = Router.Proxy) :=
  ⟨fun re resolve c a hds hty => route_asis_domain re resolve c a hds hty,
   matchDomain_full_iff, matchDomain_domain_iff, matchDomain_plain_iff,
   matchDomain_regex_eq,
   rfl, by decide, by decide, by decide, by decide⟩

/-- C1 witness: the first conjunct applied at the example client and the
address `other.com`. -/
theorem c1_route_policy_order_witness :
    Router.route Router.reNone Router.resNone Router.exampleClient (Router.dAddr "other.com") =
      (if Router.matchDomain Router.reNone Router.exampleClient.domains0 "other.com" then
        Router.Block
       else if Router.matchDomain Router.reNone Router.exampleClient.domains1 "other.com" then
        Router.Bypass
       else if Router.matchDomain Router.reNone Router.exampleClient.domains2 "other.com" then
        Router.Proxy
       else Router.exampleClient.defaultPolicy) :=
  c1_route_policy_order.1 Router.reNone Router.resNone Router.exampleClient
    (Router.dAddr "other.com") rfl rfl

/-- A rule `pfx ++ pat` with nonempty `pat` contributes `pat` to the codes
loaded from its list. -/
theorem mem_loadCodeFrom (rules : List String) (pfx pat : String) (strat : Nat)
    (hne : 0 < pat.length) (hmem : (pfx ++ pat) ∈ rules) :
    (⟨pat, strat⟩ : Router.CodeInfo) ∈ Router.loadCodeFrom rules pfx strat := by
  unfold Router.loadCodeFrom
  rw [List.mem_filterMap]
  refine ⟨pfx ++ pat, hmem, ?_⟩
  have hsw : GoStr.startsWith (pfx ++ pat).toList pfx.toList = true := by
    unfold GoStr.startsWith
    rw [List.isPrefixOf_iff_prefix]
    show pfx.data <+: (pfx ++ pat).data
    rw [String.data_append]
    exact List.prefix_append _ _
  rw [if_pos hsw]
  have hdrop : (pfx ++ pat).toList.drop pfx.length = pat.toList := by
    show (pfx ++ pat).data.drop pfx.data.length = pat.data
    rw [String.data_append, List.drop_left]
  rw [hdrop]
  rw [if_pos (show 0 < (⟨pat.toList⟩ : String).length from hne)]
  rfl

/-- A rule `pfx ++ pat` anywhere in the three rule lists contributes `pat`
to `loadCode`. -/
theorem mem_loadCode (cfg : Router.RouterSettings) (pfx pat : String)
    (hne : 0 < pat.length)
    (hmem : (pfx ++ pat) ∈ cfg.proxyRules ++ cfg.bypassRules ++ cfg.blockRules) :
    ∃ strat, (⟨pat, strat⟩ : Router.CodeInfo) ∈ Router.loadCode cfg pfx := by
  unfold Router.loadCode
  rw [List.append_assoc, List.mem_append, List.mem_append] at hmem
  rcases hmem with h | h | h
  · exact ⟨Router.Proxy,
      List.mem_append.2 (Or.inl (List.mem_append.2 (Or.inl (mem_loadCodeFrom _ _ _ _ hne h))))⟩
  · exact ⟨Router.Bypass,
      List.mem_append.2 (Or.inl (List.mem_append.2 (Or.inr (mem_loadCodeFrom _ _ _ _ hne h))))⟩
  · exact ⟨Router.Block,
      List.mem_append.2 (Or.inr (mem_loadCodeFrom _ _ _ _ hne h))⟩

/-- When a regex-loading loop succeeds, every listed pattern compiled. -/
theorem addRegexRules_ok_compiled (compileOk : String → Bool) :
    ∀ (infos : List Router.CodeInfo) (c c' : Router.Client),
      Router.addRegexRules compileOk infos c = .ok c' →
      ∀ info ∈ infos, compileOk info.code = true := by
  intro infos
  induction infos with
  | nil =>
    intro c c' h info hmem
    cases hmem
  | cons i rest ih =>
    intro c c' h info hmem
    unfold Router.addRegexRules at h
    by_cases hc : compileOk i.code = true
    · rw [if_pos hc] at h
      rcases List.mem_cons.1 hmem with heq | hm
      · rw [heq]
        exact hc
      · exact ih _ _ h info hm
    · rw [if_neg hc] at h
      cases h

/-- C5: if any configured rule is `regex:<pattern>` or `regexp:<pattern>`
with a nonempty pattern that fails to compile, `NewClient` returns an
error rather than a client. -/
theorem c5_bad_regex_fails (loadIP : Router.GeoIPLoader) (loadSite : Router.GeoSiteLoader)
    (compileOk : String → Bool) (parseIP : Router.IPParser) (cfg : Router.RouterSettings)
    (pat : String) (hne : 0 < pat.length) (hbad : compileOk pat = false)
    (hmem : ("regex:" ++ pat) ∈ cfg.proxyRules ++ cfg.bypassRules ++ cfg.blockRules ∨
      ("regexp:" ++ pat) ∈ cfg.proxyRules ++ cfg.bypassRules ++ cfg.blockRules) :
    ∀ c, Router.newClient loadIP loadSite compileOk parseIP cfg ≠ Except.ok c := by
  intro c hok
  unfold Router.newClient at hok
  split at hok
  · cases hok
  rename_i ds hds
  split at hok
  · cases hok
  rename_i dp hdp
  split at hok
  · cases hok
  rename_i c5 h3
  split at hok
  · cases hok
  rename_i c6 h4
  rcases hmem with hm | hm
  · obtain ⟨strat, hmm⟩ := mem_loadCode cfg "regex:" pat hne hm
    have hcomp : compileOk pat = true :=
      addRegexRules_ok_compiled compileOk _ _ _ h3 ⟨pat, strat⟩ hmm
    rw [hbad] at hcomp
    cases hcomp
  · obtain ⟨strat, hmm⟩ := mem_loadCode cfg "regexp:" pat hne hm
    have hcomp : compileOk pat = true :=
      addRegexRules_ok_compiled compileOk _ _ _ h4 ⟨pat, strat⟩ hmm
    rw [hbad] at hcomp
    cases hcomp

/-- C5 witness: a configuration whose block list holds `regex:[` under a
compiler that rejects `[`. -/
theorem c5_bad_regex_fails_witness :
    Router.newClient Router.noGeoIP Router.noGeoSite Router.noneCompile Router.noIPParse
      Router.badRegexCfg ≠ Except.ok Router.exampleClient :=
  c5_bad_regex_fails Router.noGeoIP Router.noGeoSite Router.noneCompile Router.noIPParse
    Router.badRegexCfg "[" (by decide) rfl (Or.inl (by decide)) Router.exampleClient

/-- Appending domain rules leaves the default policy unchanged. -/
theorem addDomains_policy (st : Nat) (rs : List Router.DomainRule) (c : Router.Client) :
    (Router.addDomains st rs c).defaultPolicy = c.defaultPolicy := by
  unfold Router.addDomains
  split_ifs <;> rfl

/-- Appending CIDR rules leaves the default policy unchanged. -/
theorem addCIDRs_policy (st : Nat) (rs : List Router.CIDRRule) (c : Router.Client) :
    (Router.addCIDRs st rs c).defaultPolicy = c.defaultPolicy := by
  unfold Router.addCIDRs
  split_ifs <;> rfl

/-- A fold whose body preserves the default policy preserves it. -/
theorem foldl_policy {β : Type} (f : Router.Client → β → Router.Client)
    (hf : ∀ c b, (f c b).defaultPolicy = c.defaultPolicy) :
    ∀ (l : List β) (c : Router.Client), (l.foldl f c).defaultPolicy = c.defaultPolicy := by
  intro l
  induction l with
  | nil => intro c; rfl
  | cons b rest ih =>
    intro c
    rw [List.foldl_cons, ih, hf]

/-- The geoip step preserves the default policy. -/
theorem addGeoIPRules_policy (loadIP : Router.GeoIPLoader) (cfg : Router.RouterSettings)
    (c : Router.Client) :
    (Router.addGeoIPRules loadIP cfg c).defaultPolicy = c.defaultPolicy := by
  unfold Router.addGeoIPRules
  apply foldl_policy
  intro c ci
  cases loadIP cfg.geoIPFilename ci.code with
  | none => rfl
  | some cidrs => exact addCIDRs_policy _ _ _

/-- The geosite step preserves the default policy. -/
theorem addGeoSiteRules_policy (loadSite : Router.GeoSiteLoader) (cfg : Router.RouterSettings)
    (c : Router.Client) :
    (Router.addGeoSiteRules loadSite cfg c).defaultPolicy = c.defaultPolicy := by
  unfold Router.addGeoSiteRules
  apply foldl_policy
  intro c ci
  split
  · rfl
  · split
    · rfl
    · exact addDomains_policy _ _ _

/-- The pure rule-loading prefix of `NewClient` keeps the parsed default
policy. -/
theorem plainRulesClient_policy (loadIP : Router.GeoIPLoader) (loadSite : Router.GeoSiteLoader)
    (cfg : Router.RouterSettings) (ds dp : Nat) :
    (Router.plainRulesClient loadIP loadSite cfg ds dp).defaultPolicy = dp := by
  unfold Router.plainRulesClient
  rw [foldl_policy _ (fun c info => addDomains_policy _ _ _),
    foldl_policy _ (fun c info => addDomains_policy _ _ _),
    addGeoSiteRules_policy, addGeoIPRules_policy]
  rfl

/-- The regex step preserves the default policy. -/
theorem addRegexRules_policy (compileOk : String → Bool) :
    ∀ (infos : List Router.CodeInfo) (c c' : Router.Client),
      Router.addRegexRules compileOk infos c = .ok c' →
      c'.defaultPolicy = c.defaultPolicy := by
  intro infos
  induction infos with
  | nil =>
    intro c c' h
    cases h
    rfl
  | cons i rest ih =>
    intro c c' h
    unfold Router.addRegexRules at h
    by_cases hc : compileOk i.code = true
    · rw [if_pos hc] at h
      rw [ih _ _ h, addDomains_policy]
    · rw [if_neg hc] at h
      cases h

/-- The cidr step preserves the default policy. -/
theorem addCIDRRules_policy (parseIP : Router.IPParser) :
    ∀ (infos : List Router.CodeInfo) (c c' : Router.Client),
      Router.addCIDRRules parseIP infos c = .ok c' →
      c'.defaultPolicy = c.defaultPolicy := by
  intro infos
  induction infos with
  | nil =>
    intro c c' h
    cases h
    rfl
  | cons i rest ih =>
    intro c c' h
    unfold Router.addCIDRRules at h
    split at h
    · cases h
    · split at h
      · cases h
      · split at h
        · cases h
        · rw [ih _ _ h, addCIDRs_policy]

/-- The default-policy switch only produces Proxy, Bypass or Block. -/
theorem parseDefaultPolicy_mem (cfg : Router.RouterSettings) (dp : Nat)
    (h : Router.parseDefaultPolicy cfg = .ok dp) :
    dp = Router.Block ∨ dp = Router.Bypass ∨ dp = Router.Proxy := by
  unfold Router.parseDefaultPolicy at h
  split_ifs at h <;> cases h
  · exact Or.inr (Or.inr rfl)
  · exact Or.inr (Or.inl rfl)
  · exact Or.inl rfl

/-- The domain loop only returns Block, Bypass or Proxy. -/
theorem routeDomainsLoop_mem (re : Router.RegexOracle) (c : Router.Client) (target : String)
    (i : Nat) (h : Router.routeDomainsLoop re c target = some i) :
    i = Router.Block ∨ i = Router.Bypass ∨ i = Router.Proxy := by
  unfold Router.routeDomainsLoop at h
  split_ifs at h <;> cases h
  · exact Or.inl rfl
  · exact Or.inr (Or.inl rfl)
  · exact Or.inr (Or.inr rfl)

/-- The CIDR loop only returns Block, Bypass or Proxy. -/
theorem routeIPLoop_mem (c : Router.Client) (ip : List Nat) (i : Nat)
    (h : Router.routeIPLoop c ip = some i) :
    i = Router.Block ∨ i = Router.Bypass ∨ i = Router.Proxy := by
  unfold Router.routeIPLoop at h
  split_ifs at h <;> cases h
  · exact Or.inl rfl
  · exact Or.inr (Or.inl rfl)
  · exact Or.inr (Or.inr rfl)

/-- The resolution pass only returns Block, Bypass or Proxy. -/
theorem resolveLoop_mem (resolve : Router.Resolver) (c : Router.Client) (a : Router.Address)
    (i : Nat) (h : Router.resolveLoop resolve c a = some i) :
    i = Router.Block ∨ i = Router.Bypass ∨ i = Router.Proxy := by
  unfold Router.resolveLoop at h
  split at h
  · exact routeIPLoop_mem _ _ _ h
  · cases h

/-- `Route` only returns Block, Bypass or Proxy when the default policy is
one of them. -/
theorem route_mem (re : Router.RegexOracle) (resolve : Router.Resolver) (c : Router.Client)
    (a : Router.Address)
    (hdp : c.defaultPolicy = Router.Block ∨ c.defaultPolicy = Router.Bypass ∨
      c.defaultPolicy = Router.Proxy) :
    Router.route re resolve c a = Router.Block ∨ Router.route re resolve c a = Router.Bypass ∨
      Router.route re resolve c a = Router.Proxy := by
  unfold Router.route
  split
  · split
    · rename_i i hpre
      split at hpre
      · exact resolveLoop_mem _ _ _ _ hpre
      · cases hpre
    · split
      · rename_i i hdom
        exact routeDomainsLoop_mem _ _ _ _ hdom
      · split
        · split
          · rename_i i hres
            exact resolveLoop_mem _ _ _ _ hres
          · exact hdp
        · exact hdp
  · split
    · rename_i i hip
      exact routeIPLoop_mem _ _ _ hip
    · exact hdp

/-- Under a well-formed default policy `DialConn` cannot reach the
`panic("unknown policy")` branch. -/
theorem dialConn_no_panic (re : Router.RegexOracle) (resolve : Router.Resolver)
    (directDial : Router.Address → Except String Unit) (c : Router.Client) (a : Router.Address)
    (hdp : c.defaultPolicy = Router.Block ∨ c.defaultPolicy = Router.Bypass ∨
      c.defaultPolicy = Router.Proxy) :
    Router.dialConn re resolve directDial c a ≠ Router.DialResult.panicUnknown := by
  have hmem := route_mem re resolve c a hdp
  unfold Router.dialConn
  rcases hmem with h | h | h <;> rw [h]
  · intro hx
    rw [if_neg (by decide : ¬ Router.Block = Router.Proxy),
      if_pos (rfl : Router.Block = Router.Block)] at hx
    cases hx
  · rw [if_neg (by decide : ¬ Router.Bypass = Router.Proxy),
      if_neg (by decide : ¬ Router.Bypass = Router.Block),
      if_pos (rfl : Router.Bypass = Router.Bypass)]
    cases directDial a with
    | ok u => exact fun hx => Router.DialResult.noConfusion hx
    | error e => exact fun hx => Router.DialResult.noConfusion hx
  · intro hx
    rw [if_pos (rfl : Router.Proxy = Router.Proxy)] at hx
    cases hx

/-- C9: every client successfully built by `NewClient` routes every
address to Block, Bypass or Proxy, and its `DialConn` never reaches the
"unknown policy" panic. -/
theorem c9_route_total (loadIP : Router.GeoIPLoader) (loadSite : Router.GeoSiteLoader)
    (compileOk : String → Bool) (parseIP : Router.IPParser) (cfg : Router.RouterSettings)
    (c : Router.Client)
    (hok : Router.newClient loadIP loadSite compileOk parseIP cfg = Except.ok c) :
    (∀ (re : Router.RegexOracle) (resolve : Router.Resolver) (a : Router.Address),
      Router.route re resolve c a = Router.Block ∨
        Router.route re resolve c a = Router.Bypass ∨
        Router.route re resolve c a = Router.Proxy) ∧
    (∀ (re : Router.RegexOracle) (resolve : Router.Resolver)
        (directDial : Router.Address → Except String Unit) (a : Router.Address),
      Router.dialConn re resolve directDial c a ≠ Router.DialResult.panicUnknown) := by
  have hdp : c.defaultPolicy = Router.Block ∨ c.defaultPolicy = Router.Bypass ∨
      c.defaultPolicy = Router.Proxy := by
    unfold Router.newClient at hok
    split at hok
    · cases hok
    rename_i ds hds
    split at hok
    · cases hok
    rename_i dp hdp'
    split at hok
    · cases hok
    rename_i c5 h3
    split at hok
    · cases hok
    rename_i c6 h4
    have hc : c.defaultPolicy = dp := by
      rw [addCIDRRules_policy parseIP _ _ _ hok,
        foldl_policy _ (fun c info => addDomains_policy _ _ _),
        addRegexRules_policy compileOk _ _ _ h4,
        addRegexRules_policy compileOk _ _ _ h3,
        plainRulesClient_policy]
    rw [hc]
    exact parseDefaultPolicy_mem cfg dp hdp'
  exact ⟨fun re resolve a => route_mem re resolve c a hdp,
    fun re resolve directDial a => dialConn_no_panic re resolve directDial c a hdp⟩

/-- C9 witness: the theorem applied to the example configuration's client. -/
theorem c9_route_total_witness :
    (Router.route Router.reNone Router.resNone Router.exampleClient (Router.dAddr "a.b") =
        Router.Block ∨
      Router.route Router.reNone Router.resNone Router.exampleClient (Router.dAddr "a.b") =
        Router.Bypass ∨
      Router.route Router.reNone Router.resNone Router.exampleClient (Router.dAddr "a.b") =
        Router.Proxy) ∧
    Router.dialConn Router.reNone Router.resNone (fun _ => Except.ok ())
      Router.exampleClient (Router.dAddr "a.b") ≠ Router.DialResult.panicUnknown :=
  ⟨(c9_route_total Router.noGeoIP Router.noGeoSite Router.allCompile Router.noIPParse
      Router.exampleCfg Router.exampleClient rfl).1 Router.reNone Router.resNone
      (Router.dAddr "a.b"),
   (c9_route_total Router.noGeoIP Router.noGeoSite Router.allCompile Router.noIPParse
      Router.exampleCfg Router.exampleClient rfl).2 Router.reNone Router.resNone
      (fun _ => Except.ok ()) (Router.dAddr "a.b")⟩
